import Mathlib

/-
Verification development for the OSE3D 3D vision module
(file src/model/vision3d.py of the embodied-generalist repository).

Shallow embedding conventions:
- Tensors are nested lists of rationals; the batch dimension is the
  outermost list, the token (object) sequence the next, the feature
  dimension the innermost.
- The transcendental maps x ↦ sin(π x) and x ↦ cos(π x) appearing in
  generate_fourier_features are abstracted as function parameters
  (sinPi, cosPi): every claim about the function concerns shapes,
  ordering and determinism, which hold for all such maps.
- External collaborators that live outside this file's source
  (PointcloudBackbone, nn.Linear, nn.Embedding, TransformerEncoderLayer,
  TransformerSpatialEncoderLayer, calc_pairwise_locs) are modelled as
  abstract functions carried in the parameter record, per the contract
  stated for them.
-/

namespace Vision3D

/-- A feature vector (one token's features, or one raw 6-d point). -/
abbrev Vec := List ℚ

/-- A token sequence: N tokens, each a feature vector. -/
abbrev TokenSeq := List Vec

/-- Pairwise relative-location matrix (opaque payload consumed by the
spatial self-attention collaborator). -/
abbrev PairMat := List (List Vec)

/-- Elementwise addition of two feature vectors (tensor `+`). -/
def vadd (a b : Vec) : Vec := List.zipWith (· + ·) a b

/-! ## Fourier feature generator (vision3d.py, generate_fourier_features) -/

/-- torch.linspace(start=1.0, end=max_freq, steps=num_bands):
entry i is 1 + i * (max_freq - 1) / (num_bands - 1).  (For num_bands = 1
the i = 0 numerator is 0, matching torch's single-point [start].) -/
def freq_bands (num_bands : Nat) (max_freq : ℚ) : List ℚ :=
  (List.range num_bands).map
    (fun i : ℕ => 1 + (max_freq - 1) * (i : ℚ) / ((num_bands : ℚ) - 1))

/-- pos.unsqueeze(-1).repeat(..) * freq_bands, reshaped to width C * num_bands:
each scalar component is multiplied by every frequency, component-major. -/
def fourier_scaled (row : Vec) (num_bands : Nat) (max_freq : ℚ) : Vec :=
  (row.map (fun c => (freq_bands num_bands max_freq).map (fun f => c * f))).flatten

/-- One position's Fourier features.  sinPi / cosPi stand for
x ↦ sin(π x) and x ↦ cos(π x).  Source order: sine half, then cosine
half (unless sine_only), and if concat_pos the raw position vector is
concatenated in front (torch.cat([pos, per_pos_features], dim=-1)). -/
def fourier_row (sinPi cosPi : ℚ → ℚ) (row : Vec) (num_bands : Nat) (max_freq : ℚ)
    (concat_pos : Bool) (sine_only : Bool) : Vec :=
  let per := fourier_scaled row num_bands max_freq
  let per' := if sine_only then per.map sinPi else per.map sinPi ++ per.map cosPi
  if concat_pos then row ++ per' else per'

/-- generate_fourier_features on a (B, N, C) input: the row transform
mapped over batch and sequence dimensions. -/
def generate_fourier_features (sinPi cosPi : ℚ → ℚ) (pos : List TokenSeq)
    (num_bands : Nat) (max_freq : ℚ) (concat_pos : Bool) (sine_only : Bool) :
    List TokenSeq :=
  pos.map (fun rows => rows.map
    (fun row => fourier_row sinPi cosPi row num_bands max_freq concat_pos sine_only))

/-! ## Activation lookup and cross-attention construction
(vision3d.py, get_activation_fn / CrossAttentionLayer.__init__) -/

/-- The three torch.nn.functional activations reachable by name. -/
inductive ActivationFn where
  | relu
  | gelu
  | glu
deriving DecidableEq

/-- get_activation_fn: raises RuntimeError for a name outside
relu/gelu/glu, otherwise resolves the named function. -/
def get_activation_fn (activation_type : String) : Except String ActivationFn :=
  if activation_type ∉ (["relu", "gelu", "glu"] : List String) then
    Except.error ("activation function currently support relu/gelu, not " ++ activation_type)
  else if activation_type = "relu" then Except.ok ActivationFn.relu
  else if activation_type = "gelu" then Except.ok ActivationFn.gelu
  else Except.ok ActivationFn.glu

/-- The statements executed by CrossAttentionLayer.__init__, in source
order: build nn.MultiheadAttention (line 62), nn.LayerNorm (line 66),
nn.Dropout (line 67), resolve the activation (line 69), then
_reset_parameters (line 72). -/
inductive CrossAttentionInitStep where
  | buildMultiheadAttn
  | buildNorm
  | buildDropout
  | setActivation
  | resetParameters
deriving DecidableEq

/-- Trace of CrossAttentionLayer.__init__: which statements run, and
whether construction completes.  When get_activation_fn raises, the
exception propagates after the attention, norm and dropout submodules
were already constructed; no forward computation ever appears. -/
def crossAttentionInitTrace (activation : String) : List CrossAttentionInitStep × Bool :=
  match get_activation_fn activation with
  | Except.error _ =>
      ([CrossAttentionInitStep.buildMultiheadAttn, CrossAttentionInitStep.buildNorm,
        CrossAttentionInitStep.buildDropout], false)
  | Except.ok _ =>
      ([CrossAttentionInitStep.buildMultiheadAttn, CrossAttentionInitStep.buildNorm,
        CrossAttentionInitStep.buildDropout, CrossAttentionInitStep.setActivation,
        CrossAttentionInitStep.resetParameters], true)

/-! ## Masked softmax and the zero-attention slot

nn.MultiheadAttention's internals are external library code, not part of
this repository's source. -/

/-- Modelled from the spec: softmax over one query's attention scores
under a key-padding mask (true = masked).  A masked key contributes
weight zero; the result is undefined (none) exactly when the
normalizing denominator is zero, which is the division-by-zero softmax
of a fully-masked memory.  The exponential is abstracted as expF (a
positive function in every use). -/
def masked_softmax (expF : ℚ → ℚ) (scores : Vec) (mask : List Bool) : Option Vec :=
  let weights := List.zipWith (fun s m => if m then 0 else expF s) scores mask
  if weights.sum = 0 then none else some (weights.map (· / weights.sum))

/-- Modelled from the spec: add_zero_attn=True appends one all-zero
key/value slot whose key-padding entry is unmasked, so at least one key
always receives attention. -/
def with_zero_attn (scores : Vec) (mask : List Bool) : Vec × List Bool :=
  (scores ++ [0], mask ++ [false])

/-! ## OSE3D orchestrator (vision3d.py, class OSE3D) -/

/-- Configuration fields of OSE3D read by __init__ and forward. -/
structure OSE3DConfig where
  use_spatial_attn : Bool
  use_embodied_token : Bool
  obj_loc_encoding : String
  num_layers : Nat
  pairwise_rel_type : String
  spatial_dist_norm : Bool
  spatial_dim : Nat

/-- Parameters and collaborator modules of a built OSE3D instance.
External collaborators (backbone, linear layers, embedding table,
encoder layers, pairwise-location computation) are abstract functions;
sinPi/cosPi abstract x ↦ sin(π x), x ↦ cos(π x) used by the Fourier
generator. -/
structure OSE3DParams where
  sinPi : ℚ → ℚ
  cosPi : ℚ → ℚ
  obj_encoder : List Vec → Vec
  obj_proj : Vec → Vec
  anchor_feat : Vec
  anchor_size : Vec
  orient_encoder : Vec → Vec
  obj_type_embed : Nat → Vec
  loc_layers : List (Vec → Vec)
  query_cross_encoder : List (TokenSeq → TokenSeq → List Bool → TokenSeq → TokenSeq)
  spatial_encoder : List (TokenSeq → Option PairMat → List Bool → TokenSeq)
  calc_pairwise_locs : String → Bool → Nat → TokenSeq → TokenSeq → PairMat

/-- One batch element of the forward input bundle. -/
structure ElemInput where
  obj_fts : List (List Vec)
  obj_masks : List Bool
  obj_locs : TokenSeq
  anchor_loc : Vec
  anchor_orientation : Vec

/-- The batched forward input bundle (data_dict). -/
structure DataDict where
  obj_fts : List (List (List Vec))
  obj_masks : List (List Bool)
  obj_locs : List TokenSeq
  anchor_locs : TokenSeq
  anchor_orientation : TokenSeq

/-- The fields forward adds / overwrites on the bundle; all other
fields pass through unchanged. -/
structure OSE3DResult where
  obj_tokens : List TokenSeq
  obj_masks : List (List Bool)
deriving DecidableEq

/-- Modelled from the spec: layer_repeat (model/utils.py, not under
src/) replicates a layer template into n module instances (section 4.3:
one instance, or one per layer). -/
def layer_repeat (template : A) (n : Nat) : List A :=
  List.replicate n template

/-- OSE3D.__init__, location-encoding branch: num_loc_layers is 1 for
same_0/same_all and num_layers for diff_all; any other string leaves
num_loc_layers unbound (a NameError), modelled as none. -/
def init_num_loc_layers (obj_loc_encoding : String) (num_layers : Nat) : Option Nat :=
  if obj_loc_encoding ∈ (["same_0", "same_all"] : List String) then some 1
  else if obj_loc_encoding = "diff_all" then some num_layers
  else none

/-- OSE3D.__init__: self.loc_layers = layer_repeat(loc_layer, num_loc_layers). -/
def init_loc_layers (obj_loc_encoding : String) (num_layers : Nat) (template : A) :
    Option (List A) :=
  (init_num_loc_layers obj_loc_encoding num_layers).map (layer_repeat template)

/-- Per-object backbone + projection (forward lines 233-234). -/
def obj_feats_of (p : OSE3DParams) (e : ElemInput) : TokenSeq :=
  e.obj_fts.map (fun o => p.obj_proj (p.obj_encoder o))

/-- Anchor feature (forward lines 245-247): learned base feature plus
the orientation's Fourier encoding projected by orient_encoder.
generate_fourier_features is called with its default parameters
(num_bands=10, max_freq=15, concat_pos=True, sine_only=False). -/
def anchor_feat_of (p : OSE3DParams) (e : ElemInput) : Vec :=
  vadd p.anchor_feat
    (p.orient_encoder (fourier_row p.sinPi p.cosPi e.anchor_orientation 10 15 true false))

/-- Forward lines 235-271: flip the mask convention, build type
embeddings, and, in embodied mode, prepend the anchor's feature, mask
entry (zeros = unmasked), location (given position ++ learned size) and
type embedding (id 1) to the object sequences. -/
def augmentedInputs (cfg : OSE3DConfig) (p : OSE3DParams) (e : ElemInput) :
    TokenSeq × List Bool × TokenSeq × TokenSeq :=
  let obj_feats := obj_feats_of p e
  let obj_masks := e.obj_masks.map not
  let obj_type_embeds := obj_feats.map (fun _ => p.obj_type_embed 0)
  if cfg.use_embodied_token then
    (anchor_feat_of p e :: obj_feats,
     false :: obj_masks,
     (e.anchor_loc ++ p.anchor_size) :: e.obj_locs,
     p.obj_type_embed 1 :: obj_type_embeds)
  else
    (obj_feats, obj_masks, e.obj_locs, obj_type_embeds)

/-- Forward line 273: all_obj_feats = all_obj_feats + all_obj_type_embeds. -/
def augmentedFeats (cfg : OSE3DConfig) (p : OSE3DParams) (e : ElemInput) : TokenSeq :=
  List.zipWith vadd (augmentedInputs cfg p e).1 (augmentedInputs cfg p e).2.2.2

/-- The internal (true = masked) token mask after optional anchor prepend. -/
def internalMasks (cfg : OSE3DConfig) (p : OSE3DParams) (e : ElemInput) : List Bool :=
  (augmentedInputs cfg p e).2.1

/-- The token locations after optional anchor prepend. -/
def augmentedLocs (cfg : OSE3DConfig) (p : OSE3DParams) (e : ElemInput) : TokenSeq :=
  (augmentedInputs cfg p e).2.2.1

/-- Fallback used when indexing a module list out of range (a built
model always indexes in range). -/
def locFallback : Vec → Vec := fun _ => []

/-- Fallback cross-attention collaborator for out-of-range indexing. -/
def crossFallback : TokenSeq → TokenSeq → List Bool → TokenSeq → TokenSeq :=
  fun tgt _ _ _ => tgt

/-- Fallback spatial-encoder collaborator for out-of-range indexing. -/
def spatialFallback : TokenSeq → Option PairMat → List Bool → TokenSeq :=
  fun tgt _ _ => tgt

/-- Forward lines 288-291: the location bias of layer i — loc_layers[i]
under diff_all, loc_layers[0] otherwise — applied to every location row. -/
def queryPos (cfg : OSE3DConfig) (p : OSE3DParams) (all_obj_locs : TokenSeq) (i : Nat) :
    TokenSeq :=
  if cfg.obj_loc_encoding = "diff_all" then
    all_obj_locs.map (p.loc_layers.getD i locFallback)
  else
    all_obj_locs.map (p.loc_layers.getD 0 locFallback)

/-- Forward lines 287-306, one loop iteration: cross-attend the query
to the feature memory (the same location bias serves as query_pos and
pos), residual-add the bias, then run the spatial (or plain)
self-attention collaborator. -/
def layerStep (cfg : OSE3DConfig) (p : OSE3DParams) (all_obj_feats : TokenSeq)
    (all_obj_masks : List Bool) (all_obj_locs : TokenSeq) (pairwise_locs : Option PairMat)
    (q : TokenSeq) (i : Nat) : TokenSeq :=
  let query_pos := queryPos cfg p all_obj_locs i
  let q1 := List.zipWith vadd
    ((p.query_cross_encoder.getD i crossFallback) q all_obj_feats all_obj_masks query_pos)
    query_pos
  (p.spatial_encoder.getD i spatialFallback) q1 pairwise_locs all_obj_masks

/-- OSE3D.forward on one batch element (all tensor operations in the
source act batch-elementwise): returns (obj_tokens row, obj_masks row). -/
def forwardElem (cfg : OSE3DConfig) (p : OSE3DParams) (e : ElemInput) :
    TokenSeq × List Bool :=
  let all_obj_feats := augmentedFeats cfg p e
  let all_obj_masks := internalMasks cfg p e
  let all_obj_locs := augmentedLocs cfg p e
  let pairwise_locs :=
    if cfg.use_spatial_attn then
      some (p.calc_pairwise_locs cfg.pairwise_rel_type cfg.spatial_dist_norm cfg.spatial_dim
        (all_obj_locs.map (fun r => r.take 3)) (all_obj_locs.map (fun r => r.drop 3)))
    else none
  let query0 : TokenSeq := all_obj_feats.map (fun v => v.map (fun _ => (0 : ℚ)))
  let _query_final := (List.range cfg.num_layers).foldl
    (layerStep cfg p all_obj_feats all_obj_masks all_obj_locs pairwise_locs) query0
  (all_obj_feats, all_obj_masks.map not)

/-- Select batch element b of the input bundle. -/
def DataDict.elem (dd : DataDict) (b : Nat) : ElemInput :=
  { obj_fts := dd.obj_fts.getD b []
    obj_masks := dd.obj_masks.getD b []
    obj_locs := dd.obj_locs.getD b []
    anchor_loc := dd.anchor_locs.getD b []
    anchor_orientation := dd.anchor_orientation.getD b [] }

/-- OSE3D.forward (lines 223-311): map the per-element computation over
the batch; obj_tokens is the augmented feature sequence and obj_masks
the re-inverted mask. -/
def OSE3D_forward (cfg : OSE3DConfig) (p : OSE3DParams) (dd : DataDict) : OSE3DResult :=
  let outs := (List.range dd.obj_fts.length).map (fun b => forwardElem cfg p (dd.elem b))
  { obj_tokens := outs.map Prod.fst
    obj_masks := outs.map Prod.snd }

/-! ## Concrete instances used by witnesses and counterexamples -/

/-- Embodied configuration (spatial attention off, zero loop layers
keep witness evaluation small; the claims quantify over these). -/
def cfgW : OSE3DConfig :=
  { use_spatial_attn := false
    use_embodied_token := true
    obj_loc_encoding := "same_0"
    num_layers := 0
    pairwise_rel_type := "center"
    spatial_dist_norm := true
    spatial_dim := 5 }

/-- Non-embodied configuration. -/
def cfgW2 : OSE3DConfig :=
  { cfgW with use_embodied_token := false }

/-- Concrete parameters: one-dimensional hidden space, type embedding 1
for objects (id 0) and 10 for the anchor (id 1). -/
def pW : OSE3DParams :=
  { sinPi := fun _ => 0
    cosPi := fun _ => 1
    obj_encoder := fun _ => [0]
    obj_proj := fun v => v
    anchor_feat := [0]
    anchor_size := [1, 1, 1]
    orient_encoder := fun _ => [0]
    obj_type_embed := fun t => if t = 1 then [10] else [1]
    loc_layers := [fun _ => [0]]
    query_cross_encoder := []
    spatial_encoder := []
    calc_pairwise_locs := fun _ _ _ _ _ => [] }

/-- One batch element with a single valid object. -/
def eW : ElemInput :=
  { obj_fts := [[[1, 2, 3, 4, 5, 6]]]
    obj_masks := [true]
    obj_locs := [[0, 0, 0, 1, 1, 1]]
    anchor_loc := [0, 0, 0]
    anchor_orientation := [0] }

/-- The same element with its only object marked invalid. -/
def eW0 : ElemInput :=
  { eW with obj_masks := [false] }

/-- A one-element batch around eW. -/
def ddW : DataDict :=
  { obj_fts := [eW.obj_fts]
    obj_masks := [eW.obj_masks]
    obj_locs := [eW.obj_locs]
    anchor_locs := [eW.anchor_loc]
    anchor_orientation := [eW.anchor_orientation] }

/-- A concrete location-embedding template. -/
def locTW : Vec → Vec := fun v => v

/-! ### Fourier helper lemmas -/

lemma freq_bands_length (num_bands : Nat) (max_freq : ℚ) :
    (freq_bands num_bands max_freq).length = num_bands := by
  rw [freq_bands, List.length_map, List.length_range]

lemma fourier_scaled_length (row : Vec) (num_bands : Nat) (max_freq : ℚ) :
    (fourier_scaled row num_bands max_freq).length = row.length * num_bands := by
  induction row with
  | nil => simp [fourier_scaled]
  | cons c row ih =>
      simp only [fourier_scaled, List.map_cons, List.flatten_cons, List.length_append,
        List.length_map, freq_bands_length] at *
      simp [ih, Nat.succ_mul, Nat.add_comm]

lemma fourier_row_length (sinPi cosPi : ℚ → ℚ) (row : Vec) (num_bands : Nat)
    (max_freq : ℚ) (concat_pos sine_only : Bool) :
    (fourier_row sinPi cosPi row num_bands max_freq concat_pos sine_only).length =
      (if sine_only then row.length * num_bands else 2 * (row.length * num_bands)) +
        (if concat_pos then row.length else 0) := by
  cases sine_only <;> cases concat_pos <;>
    simp [fourier_row, fourier_scaled_length, Nat.two_mul, Nat.add_comm]

/-! ### General helper lemmas -/

/-- Adding a constant type embedding by zipWith equals mapping the add. -/
lemma zipWith_vadd_map_const (c : Vec) :
    ∀ fs : TokenSeq, List.zipWith vadd fs (fs.map (fun _ => c)) = fs.map (fun f => vadd f c) := by
  intro fs
  induction fs with
  | nil => rfl
  | cons f fs ih =>
      simp only [List.map_cons, List.zipWith_cons_cons]
      rw [ih]

/-- Double mask inversion is the identity. -/
lemma map_not_not (l : List Bool) : (l.map not).map not = l := by
  induction l with
  | nil => rfl
  | cons x l ih => cases x <;> simp [ih]

/-- Mapping an indexed lookup over the index range recovers the list. -/
lemma map_getD_range (l : List (List Bool)) :
    (List.range l.length).map (fun b => l.getD b []) = l := by
  apply List.ext_getElem
  · simp
  · intro i h1 h2
    simp only [List.getElem_map, List.getElem_range]
    exact List.getD_eq_getElem l [] h2

/-- Attention weights under a key-padding mask are nonnegative when the
exponential is positive. -/
lemma zipWith_weights_nonneg (expF : ℚ → ℚ) (hpos : ∀ x, 0 < expF x) :
    ∀ (scores : Vec) (mask : List Bool),
      0 ≤ (List.zipWith (fun s m => if m then 0 else expF s) scores mask).sum := by
  intro scores
  induction scores with
  | nil => intro mask; simp
  | cons s scores ih =>
      intro mask
      cases mask with
      | nil => simp
      | cons m mask =>
          simp only [List.zipWith_cons_cons, List.sum_cons]
          have h1 : (0 : ℚ) ≤ if m then 0 else expF s := by
            cases m
            · simpa using (hpos s).le
            · simp
          exact add_nonneg h1 (ih mask)

/-- Fully-masked memories give an all-zero weight vector. -/
lemma zipWith_weights_all_masked (expF : ℚ → ℚ) :
    ∀ (scores : Vec) (mask : List Bool), (∀ m ∈ mask, m = true) →
      (List.zipWith (fun s m => if m then 0 else expF s) scores mask).sum = 0 := by
  intro scores
  induction scores with
  | nil => intro mask _; simp
  | cons s scores ih =>
      intro mask hall
      cases mask with
      | nil => simp
      | cons m mask =>
          have hm : m = true := hall m (List.mem_cons_self m mask)
          have hrest : ∀ x ∈ mask, x = true := fun x hx => hall x (List.mem_cons_of_mem m hx)
          simp [hm, ih mask hrest]

/-- zipWith over both lists extended by one matched pair. -/
lemma zipWith_append_single (f : ℚ → Bool → ℚ) (z : ℚ) (b : Bool) :
    ∀ (scores : Vec) (mask : List Bool), scores.length = mask.length →
      List.zipWith f (scores ++ [z]) (mask ++ [b]) =
        List.zipWith f scores mask ++ [f z b] := by
  intro scores
  induction scores with
  | nil =>
      intro mask h
      cases mask with
      | nil => rfl
      | cons m mask => simp at h
  | cons s scores ih =>
      intro mask h
      cases mask with
      | nil => simp at h
      | cons m mask =>
          simp only [List.length_cons, Nat.succ.injEq] at h
          simp [ih mask h]

/-- A masked softmax with a nonzero denominator is defined. -/
lemma masked_softmax_isSome (expF : ℚ → ℚ) (scores : Vec) (mask : List Bool)
    (h : (List.zipWith (fun s m => if m then 0 else expF s) scores mask).sum ≠ 0) :
    (masked_softmax expF scores mask).isSome = true := by
  rw [masked_softmax]
  simp only [if_neg h]
  rfl

/-- A masked softmax with a zero denominator is undefined. -/
lemma masked_softmax_none (expF : ℚ → ℚ) (scores : Vec) (mask : List Bool)
    (h : (List.zipWith (fun s m => if m then 0 else expF s) scores mask).sum = 0) :
    masked_softmax expF scores mask = none := by
  rw [masked_softmax]
  simp only [if_pos h]

/-! ## Claim theorems -/

/-- C5 (counterexample): at input [2] with one frequency band and
sinPi = const 0, cosPi = const 1, the generator returns [2, 0, 1] —
the raw position comes FIRST — and not the claimed
sine-cosine-raw-last order [0, 1, 2]. -/
theorem fourier_raw_position_not_last_cex :
    fourier_row (fun _ => 0) (fun _ => 1) [2] 1 1 true false = [2, 0, 1] ∧
    fourier_row (fun _ => 0) (fun _ => 1) [2] 1 1 true false ≠
      (fourier_scaled [2] 1 1).map (fun _ => (0 : ℚ)) ++
        (fourier_scaled [2] 1 1).map (fun _ => (1 : ℚ)) ++ [2] := by
  decide

/-- C5 (amended): with concat_raw_position set and sine_only false, the
output concatenates, along the feature axis, the untransformed raw
position vector first, then the sine half, then the cosine half. -/
theorem fourier_concat_order (sinPi cosPi : ℚ → ℚ) (row : Vec) (nb : Nat) (mf : ℚ) :
    fourier_row sinPi cosPi row nb mf true false =
      row ++ (fourier_scaled row nb mf).map sinPi ++
        (fourier_scaled row nb mf).map cosPi := by
  simp [fourier_row, List.append_assoc]

/-- C6: generate_fourier_features is deterministic in its inputs, its
frequency bands are num_bands values linearly spaced from 1.0 to
max_freq, and a width-C input row yields width C*num_bands (sine_only)
or 2*C*num_bands, plus C more when the raw position is concatenated. -/
theorem fourier_deterministic_width (sinPi cosPi : ℚ → ℚ) (pos : List TokenSeq)
    (row : Vec) (nb : Nat) (mf : ℚ) (cp so : Bool) :
    generate_fourier_features sinPi cosPi pos nb mf cp so =
      generate_fourier_features sinPi cosPi pos nb mf cp so ∧
    freq_bands nb mf =
      (List.range nb).map
        (fun i : ℕ => 1 + (mf - 1) * (i : ℚ) / ((nb : ℚ) - 1)) ∧
    (fourier_row sinPi cosPi row nb mf cp so).length =
      (if so then row.length * nb else 2 * (row.length * nb)) +
        (if cp then row.length else 0) :=
  ⟨rfl, rfl, fourier_row_length sinPi cosPi row nb mf cp so⟩

/-- C8 (counterexample): constructing a cross-attention layer with the
unsupported activation name "tanh" does raise during construction, but
only AFTER the multi-head-attention submodule (and norm and dropout)
are built — refuting "before any layer is built". -/
theorem activation_error_after_submodules_cex :
    (crossAttentionInitTrace "tanh").2 = false ∧
    CrossAttentionInitStep.buildMultiheadAttn ∈ (crossAttentionInitTrace "tanh").1 ∧
    CrossAttentionInitStep.buildNorm ∈ (crossAttentionInitTrace "tanh").1 := by
  decide

/-- C8 (amended): an activation name outside {relu, gelu, glu} makes
get_activation_fn fail, so construction raises before the activation is
set, before parameters are reset, and before any forward computation —
though the attention, norm and dropout submodules are constructed first
and construction as a whole fails; a supported name constructs
successfully. -/
theorem activation_name_checked_at_construction (a : String) :
    (a ∉ (["relu", "gelu", "glu"] : List String) →
      (get_activation_fn a).isOk = false ∧
      (crossAttentionInitTrace a).2 = false ∧
      (crossAttentionInitTrace a).1 =
        [CrossAttentionInitStep.buildMultiheadAttn, CrossAttentionInitStep.buildNorm,
         CrossAttentionInitStep.buildDropout]) ∧
    (a ∈ (["relu", "gelu", "glu"] : List String) →
      (crossAttentionInitTrace a).2 = true) := by
  constructor
  · intro h
    have hg : get_activation_fn a =
        Except.error ("activation function currently support relu/gelu, not " ++ a) := by
      rw [get_activation_fn, if_pos h]
    rw [crossAttentionInitTrace, hg]
    exact ⟨rfl, rfl, rfl⟩
  · intro h
    simp only [List.mem_cons, List.not_mem_nil, or_false] at h
    rcases h with h | h | h <;> subst h <;> decide

/-- C8 (witness): at the concrete inputs "tanh" and "relu". -/
theorem activation_name_checked_witness :
    ((crossAttentionInitTrace "tanh").2 = false ∧
      (crossAttentionInitTrace "tanh").1 =
        [CrossAttentionInitStep.buildMultiheadAttn, CrossAttentionInitStep.buildNorm,
         CrossAttentionInitStep.buildDropout]) ∧
    (crossAttentionInitTrace "relu").2 = true :=
  ⟨⟨((activation_name_checked_at_construction "tanh").1 (by decide)).2.1,
    ((activation_name_checked_at_construction "tanh").1 (by decide)).2.2⟩,
   (activation_name_checked_at_construction "relu").2 (by decide)⟩

/-- C9: building with obj_loc_encoding = diff_all and L layers yields
exactly L location-embedding instances, and same_0 / same_all yield
exactly 1; in the forward loop, same_0 / same_all index instance 0 at
every iteration, while diff_all indexes instance i at iteration i. -/
theorem loc_policy_instance_count (L : Nat) (t : Vec → Vec) (cfg : OSE3DConfig)
    (p : OSE3DParams) (locs : TokenSeq) (i : Nat) :
    (init_loc_layers "diff_all" L t).map List.length = some L ∧
    (init_loc_layers "same_0" L t).map List.length = some 1 ∧
    (init_loc_layers "same_all" L t).map List.length = some 1 ∧
    (cfg.obj_loc_encoding = "same_0" ∨ cfg.obj_loc_encoding = "same_all" →
      queryPos cfg p locs i = queryPos cfg p locs 0) ∧
    (cfg.obj_loc_encoding = "diff_all" →
      queryPos cfg p locs i = locs.map (p.loc_layers.getD i locFallback)) := by
  have hdiff : init_num_loc_layers "diff_all" L = some L := rfl
  have hs0 : init_num_loc_layers "same_0" L = some 1 := rfl
  have hsa : init_num_loc_layers "same_all" L = some 1 := rfl
  refine ⟨?_, ?_, ?_, ?_, ?_⟩
  · rw [init_loc_layers, hdiff]
    simp [layer_repeat]
  · rw [init_loc_layers, hs0]
    simp [layer_repeat]
  · rw [init_loc_layers, hsa]
    simp [layer_repeat]
  · rintro (h | h) <;> simp [queryPos, h]
  · intro h
    simp [queryPos, h]

/-- C9 (witness): two layers under diff_all give two instances, and
under the same_0 configuration iteration 1 reuses instance 0. -/
theorem loc_policy_instance_count_witness :
    (init_loc_layers "diff_all" 2 locTW).map List.length = some 2 ∧
    queryPos cfgW pW [[1]] 1 = queryPos cfgW pW [[1]] 0 :=
  ⟨(loc_policy_instance_count 2 locTW cfgW pW [[1]] 1).1,
   (loc_policy_instance_count 2 locTW cfgW pW [[1]] 1).2.2.2.1 (Or.inl rfl)⟩

/-- C1: for every configuration, parameters and input bundle, forward
returns as obj_tokens the anchor-fused, type-embedded feature sequence
(the augmented input features) and as obj_masks the internal mask
inverted back to the external true=valid convention; the query refined
across the layer loop is discarded — the tokens equal those of a run
with zero loop iterations. -/
theorem forward_returns_features_not_query (cfg : OSE3DConfig) (p : OSE3DParams)
    (dd : DataDict) :
    (OSE3D_forward cfg p dd).obj_tokens =
      (List.range dd.obj_fts.length).map (fun b => augmentedFeats cfg p (dd.elem b)) ∧
    (OSE3D_forward cfg p dd).obj_masks =
      (List.range dd.obj_fts.length).map
        (fun b => (internalMasks cfg p (dd.elem b)).map not) ∧
    (OSE3D_forward cfg p dd).obj_tokens =
      (OSE3D_forward { cfg with num_layers := 0 } p dd).obj_tokens := by
  refine ⟨?_, ?_, ?_⟩
  · show (((List.range dd.obj_fts.length).map
        (fun b => forwardElem cfg p (dd.elem b))).map Prod.fst) = _
    rw [List.map_map]
    rfl
  · show (((List.range dd.obj_fts.length).map
        (fun b => forwardElem cfg p (dd.elem b))).map Prod.snd) = _
    rw [List.map_map]
    rfl
  · rfl

/-- C2: with use_embodied_token = true and N input objects, the anchor
entry is prepended at index 0 of the features, masks, locations and
type embeddings, the returned obj_tokens and obj_masks rows have length
N + 1, and the returned mask at index 0 is true (valid) whatever the
input object mask contains. -/
theorem anchor_augmentation_shape (cfg : OSE3DConfig) (p : OSE3DParams) (e : ElemInput)
    (hemb : cfg.use_embodied_token = true)
    (hN : e.obj_masks.length = e.obj_fts.length) :
    (augmentedInputs cfg p e).1 = anchor_feat_of p e :: obj_feats_of p e ∧
    (augmentedInputs cfg p e).2.1 = false :: e.obj_masks.map not ∧
    (augmentedInputs cfg p e).2.2.1 = (e.anchor_loc ++ p.anchor_size) :: e.obj_locs ∧
    (augmentedInputs cfg p e).2.2.2 =
      p.obj_type_embed 1 :: (obj_feats_of p e).map (fun _ => p.obj_type_embed 0) ∧
    (forwardElem cfg p e).1.length = e.obj_fts.length + 1 ∧
    (forwardElem cfg p e).2.length = e.obj_fts.length + 1 ∧
    (forwardElem cfg p e).2.getD 0 false = true := by
  have h1 : augmentedInputs cfg p e =
      (anchor_feat_of p e :: obj_feats_of p e,
       false :: e.obj_masks.map not,
       (e.anchor_loc ++ p.anchor_size) :: e.obj_locs,
       p.obj_type_embed 1 :: (obj_feats_of p e).map (fun _ => p.obj_type_embed 0)) := by
    rw [augmentedInputs, if_pos hemb]
  refine ⟨by rw [h1], by rw [h1], by rw [h1], by rw [h1], ?_, ?_, ?_⟩
  · show (augmentedFeats cfg p e).length = _
    rw [augmentedFeats, h1]
    simp [obj_feats_of]
  · show ((internalMasks cfg p e).map not).length = _
    rw [internalMasks, h1]
    simp [hN]
  · show ((internalMasks cfg p e).map not).getD 0 false = true
    rw [internalMasks, h1]
    rfl

/-- C2 (witness): concrete embodied run with one object. -/
theorem anchor_augmentation_shape_witness :
    cfgW.use_embodied_token = true ∧ eW.obj_masks.length = eW.obj_fts.length ∧
    (forwardElem cfgW pW eW).1.length = eW.obj_fts.length + 1 ∧
    (forwardElem cfgW pW eW).2.getD 0 false = true :=
  ⟨rfl, rfl, (anchor_augmentation_shape cfgW pW eW rfl rfl).2.2.2.2.1,
   (anchor_augmentation_shape cfgW pW eW rfl rfl).2.2.2.2.2.2⟩

/-- C3: with use_embodied_token = false the obj_masks returned by
forward equal the input obj_masks exactly — the internal inversion is
exactly undone at exit, no anchor entry is appended and the batch/
sequence shape is unchanged. -/
theorem mask_convention_round_trip (cfg : OSE3DConfig) (p : OSE3DParams) (dd : DataDict)
    (hemb : cfg.use_embodied_token = false)
    (hlen : dd.obj_masks.length = dd.obj_fts.length) :
    (OSE3D_forward cfg p dd).obj_masks = dd.obj_masks := by
  have helem : ∀ b : Nat, (forwardElem cfg p (dd.elem b)).2 = dd.obj_masks.getD b [] := by
    intro b
    show ((internalMasks cfg p (dd.elem b)).map not) = _
    rw [internalMasks, augmentedInputs, if_neg (by simp [hemb])]
    show (((dd.elem b).obj_masks.map not).map not) = _
    rw [map_not_not]
    rfl
  have hmaps : (OSE3D_forward cfg p dd).obj_masks =
      (List.range dd.obj_fts.length).map (fun b => dd.obj_masks.getD b []) := by
    show (((List.range dd.obj_fts.length).map
        (fun b => forwardElem cfg p (dd.elem b))).map Prod.snd) = _
    rw [List.map_map]
    exact List.map_congr_left (fun b _ => helem b)
  rw [hmaps, ← hlen, map_getD_range]

/-- C3 (witness): concrete non-embodied run. -/
theorem mask_convention_round_trip_witness :
    cfgW2.use_embodied_token = false ∧ ddW.obj_masks.length = ddW.obj_fts.length ∧
    (OSE3D_forward cfgW2 pW ddW).obj_masks = ddW.obj_masks :=
  ⟨rfl, rfl, mask_convention_round_trip cfgW2 pW ddW rfl rfl⟩

/-- C4 (counterexample): with embodied mode on, type embedding [1] for
objects and a projected object feature [0], the returned token of the
(only) ordinary object is [1] = feature + one type embedding — not
feature + type embedding added twice, which would be [2]. -/
theorem type_embed_added_once_cex :
    (forwardElem cfgW pW eW).1.getD 1 [] =
      vadd (pW.obj_proj (pW.obj_encoder (eW.obj_fts.getD 0 []))) (pW.obj_type_embed 0) ∧
    (forwardElem cfgW pW eW).1.getD 1 [] ≠
      vadd (vadd (pW.obj_proj (pW.obj_encoder (eW.obj_fts.getD 0 [])))
        (pW.obj_type_embed 0)) (pW.obj_type_embed 0) := by
  refine ⟨?_, ?_⟩ <;>
    norm_num [forwardElem, augmentedFeats, augmentedInputs, obj_feats_of, anchor_feat_of,
      vadd, cfgW, pW, eW]

/-- C4 (amended): the type embeddings computed in step 3 are not yet
added there; they are added exactly once, after the optional anchor
prepend — with embodied mode on, every ordinary object's returned token
is its projected feature plus its type embedding contributed once (and
the anchor token its feature plus the anchor type embedding once). -/
theorem type_embed_added_once (cfg : OSE3DConfig) (p : OSE3DParams) (e : ElemInput)
    (hemb : cfg.use_embodied_token = true) :
    (forwardElem cfg p e).1 =
      vadd (anchor_feat_of p e) (p.obj_type_embed 1) ::
        (obj_feats_of p e).map (fun f => vadd f (p.obj_type_embed 0)) := by
  show augmentedFeats cfg p e = _
  rw [augmentedFeats, augmentedInputs, if_pos hemb]
  show List.zipWith vadd (anchor_feat_of p e :: obj_feats_of p e)
      (p.obj_type_embed 1 :: (obj_feats_of p e).map (fun _ => p.obj_type_embed 0)) = _
  rw [List.zipWith_cons_cons, zipWith_vadd_map_const]

/-- C4 (witness): the amended statement at the concrete embodied run. -/
theorem type_embed_added_once_witness :
    cfgW.use_embodied_token = true ∧
    (forwardElem cfgW pW eW).1 =
      vadd (anchor_feat_of pW eW) (pW.obj_type_embed 1) ::
        (obj_feats_of pW eW).map (fun f => vadd f (pW.obj_type_embed 0)) :=
  ⟨rfl, type_embed_added_once cfgW pW eW rfl⟩

/-- C7: for a batch element whose object mask marks every object
invalid (embodied mode disabled), the internal key-padding mask is
fully masked, the bare masked softmax is the undefined
division-by-zero case (none), yet with the add_zero_attn fallback slot
it is always defined (some); the forward pass completes with
obj_tokens equal to the well-defined augmented features. -/
theorem fully_masked_robustness (cfg : OSE3DConfig) (p : OSE3DParams) (e : ElemInput)
    (expF : ℚ → ℚ) (scores : Vec)
    (hpos : ∀ x, 0 < expF x)
    (hemb : cfg.use_embodied_token = false)
    (hmask : ∀ m ∈ e.obj_masks, m = false)
    (hlen : scores.length = (internalMasks cfg p e).length) :
    (∀ m ∈ internalMasks cfg p e, m = true) ∧
    masked_softmax expF scores (internalMasks cfg p e) = none ∧
    (masked_softmax expF (with_zero_attn scores (internalMasks cfg p e)).1
      (with_zero_attn scores (internalMasks cfg p e)).2).isSome = true ∧
    (forwardElem cfg p e).1 = augmentedFeats cfg p e := by
  have hIM : internalMasks cfg p e = e.obj_masks.map not := by
    rw [internalMasks, augmentedInputs, if_neg (by simp [hemb])]
  have hall : ∀ m ∈ internalMasks cfg p e, m = true := by
    rw [hIM]
    intro m hm
    rcases List.mem_map.mp hm with ⟨x, hx, hxm⟩
    rw [← hxm, hmask x hx]
    rfl
  have hzero : (List.zipWith (fun s m => if m then 0 else expF s) scores
      (internalMasks cfg p e)).sum = 0 :=
    zipWith_weights_all_masked expF scores _ hall
  refine ⟨hall, masked_softmax_none expF scores _ hzero, ?_, rfl⟩
  apply masked_softmax_isSome
  show (List.zipWith (fun s m => if m then 0 else expF s)
      (scores ++ [0]) ((internalMasks cfg p e) ++ [false])).sum ≠ 0
  rw [zipWith_append_single _ 0 false scores _ hlen, List.sum_append, List.sum_cons,
    List.sum_nil, add_zero, if_neg Bool.false_ne_true]
  exact (add_pos_of_nonneg_of_pos (zipWith_weights_nonneg expF hpos scores _) (hpos 0)).ne'

/-- C7 (witness): one object, marked invalid, under the non-embodied
configuration, with expF = const 1 and score list [5]. -/
theorem fully_masked_robustness_witness :
    (∀ m ∈ eW0.obj_masks, m = false) ∧ cfgW2.use_embodied_token = false ∧
    ((∀ m ∈ internalMasks cfgW2 pW eW0, m = true) ∧
     masked_softmax (fun _ => 1) [5] (internalMasks cfgW2 pW eW0) = none ∧
     (masked_softmax (fun _ => 1) (with_zero_attn [5] (internalMasks cfgW2 pW eW0)).1
       (with_zero_attn [5] (internalMasks cfgW2 pW eW0)).2).isSome = true ∧
     (forwardElem cfgW2 pW eW0).1 = augmentedFeats cfgW2 pW eW0) :=
  ⟨by decide, rfl,
   fully_masked_robustness cfgW2 pW eW0 (fun _ => 1) [5]
     (fun _ => one_pos) rfl (by decide) rfl⟩

/-- C10: the returned obj_tokens and obj_masks are independent of the
entire query-refinement loop — replacing the cross-attention layers,
the spatial/plain self-attention layers and the location-embedding
layers, and changing the number of loop iterations (including to zero),
leaves the output identical, because the loop only updates the query
state, which is never written into the output. -/
theorem output_independent_of_refinement_loop (cfg : OSE3DConfig) (p : OSE3DParams)
    (dd : DataDict)
    (qc : List (TokenSeq → TokenSeq → List Bool → TokenSeq → TokenSeq))
    (se : List (TokenSeq → Option PairMat → List Bool → TokenSeq))
    (ll : List (Vec → Vec)) (L : Nat) :
    OSE3D_forward { cfg with num_layers := L }
      { p with query_cross_encoder := qc, spatial_encoder := se, loc_layers := ll } dd =
      OSE3D_forward cfg p dd := rfl

end Vision3D
